import Mathlib

set_option maxHeartbeats 1000000

namespace Coloc

/-! Shallow embedding of the CAVI core of the gp_fine_mapping repository:
the sample-based engine (`IndependentFactorSER`, independent_model2.py),
the covariance-based engine (`CAFEH2`, cafeh2.py) and the exported pip
computation (misc.py).  Arrays are total functions over `Fin`; a missing
(NaN) observation in `Y` of the sample-based engine is `none`.  Scalars
are a linear ordered field, instantiated at `ℚ` for executable claims and
at `ℝ` where the source uses exp/log. -/

/-- State of the sample-based engine `IndependentFactorSER`
(independent_model2.py).  The covariate machinery is carried explicitly:
`covariates` is `none` when the model is built without covariates
(`covariates=None`), and otherwise holds, per tissue, the covariate
design values indexed by covariate index and sample; `n_covariates`,
`cov_weights` and `sample_covariate_map` mirror the per-tissue covariate
count, the fitted nuisance weights and the sample-presence mask. -/
structure IFS (T N M K : ℕ) (F : Type) where
  X : Fin N → Fin M → F
  Y : Fin T → Fin M → Option F
  weight_means : Fin T → Fin K → Fin N → F
  weight_vars : Fin T → Fin K → Fin N → F
  pi : Fin K → Fin N → F
  prior_pi : Fin N → F
  weight_precision_a : Fin T → Fin K → F
  weight_precision_b : Fin T → Fin K → F
  tissue_precision_a : Fin T → F
  tissue_precision_b : Fin T → F
  covariates : Option (Fin T → ℕ → Fin M → F)
  n_covariates : Fin T → ℕ
  cov_weights : Fin T → ℕ → F
  sample_covariate_map : Fin T → Fin M → Bool

namespace IFS

variable {T N M K : ℕ} {F : Type} [LinearOrderedField F]

/-- The nan mask of `_get_mask`: the samples of tissue `t` with an observed
(non-NaN) value, as a finset. -/
def get_mask (s : IFS T N M K F) (t : Fin T) : Finset (Fin M) :=
  Finset.univ.filter (fun m => (s.Y t m).isSome)

/-- The numeric value of an observation (meaningful only on the mask). -/
def Yval (s : IFS T N M K F) (t : Fin T) (m : Fin M) : F :=
  (s.Y t m).getD 0

/-- Embeds `_get_diag`: diag(X^T X) restricted to the observed samples of tissue
`t`. -/
def get_diag (s : IFS T N M K F) (t : Fin T) (n : Fin N) : F :=
  ∑ m ∈ s.get_mask t, s.X n m ^ 2

/-- Embeds `expected_tissue_precision`: a/b of the Gamma variational posterior. -/
def expected_tissue_precision (s : IFS T N M K F) (t : Fin T) : F :=
  s.tissue_precision_a t / s.tissue_precision_b t

/-- Embeds `expected_weight_precision`: a/b of the Gamma variational posterior. -/
def expected_weight_precision (s : IFS T N M K F) (t : Fin T) (k : Fin K) : F :=
  s.weight_precision_a t k / s.weight_precision_b t k

/-- Body of `_compute_first_moment_hash`: E[Xzw] for a component,
`(pi * weight) @ X`. -/
def compute_first_moment (s : IFS T N M K F) (k : Fin K) (t : Fin T) (m : Fin M) : F :=
  ∑ n, s.pi k n * s.weight_means t k n * s.X n m

/-- Body of `_compute_second_moment_hash`: E[(Xzw)^2] for a component,
`(pi * (weight**2 + var)) @ X**2`. -/
def compute_second_moment (s : IFS T N M K F) (k : Fin K) (t : Fin T) (m : Fin M) : F :=
  ∑ n, s.pi k n * (s.weight_means t k n ^ 2 + s.weight_vars t k n) * s.X n m ^ 2

/-- The content fingerprint used by `compute_first_moment` as its cache
key: the byte representation of `pi @ weight.T`, a vector of one inner
product per tissue. -/
def first_moment_hash_key (s : IFS T N M K F) (k : Fin K) (t : Fin T) : F :=
  ∑ n, s.pi k n * s.weight_means t k n

/-- The content fingerprint used by `compute_second_moment` as its cache
key: the byte representation of `pi @ (weight + var**2).T`. -/
def second_moment_hash_key (s : IFS T N M K F) (k : Fin K) (t : Fin T) : F :=
  ∑ n, s.pi k n * (s.weight_means t k n + s.weight_vars t k n ^ 2)

/-- Embeds `expected_effects`: E[zw], `einsum('ijk,jk->ik', weight_means, pi)`. -/
def expected_effects (s : IFS T N M K F) (t : Fin T) (n : Fin N) : F :=
  ∑ k, s.weight_means t k n * s.pi k n

/-- Embeds `_compute_covariate_prediction(compute)`: an all-zero array
when the model has no covariates or `compute` is false; otherwise, at
the mapped samples of each tissue,
`cov_weights[tissue] @ covariates[tissue].values`, zero elsewhere. -/
def compute_covariate_prediction (s : IFS T N M K F) (compute : Bool)
    (t : Fin T) (m : Fin M) : F :=
  match s.covariates with
  | none => 0
  | some cov =>
    if compute then
      if s.sample_covariate_map t m then
        ∑ c ∈ Finset.range (s.n_covariates t), s.cov_weights t c * cov t c m
      else 0
    else 0

/-- Embeds `compute_prediction` (default `use_covariates=True`): the
covariate prediction plus `expected_effects @ X`. -/
def compute_prediction (s : IFS T N M K F) (t : Fin T) (m : Fin M) : F :=
  s.compute_covariate_prediction true t m + ∑ n, s.expected_effects t n * s.X n m

/-- Embeds `compute_residual()` without exclusion, `Y - prediction`; meaningful
only on the mask (at a NaN observation the source holds NaN there). -/
def compute_residual (s : IFS T N M K F) (t : Fin T) (m : Fin M) : F :=
  s.Yval t m - s.compute_prediction t m

/-- Embeds `compute_residual(k)`: the leave-one-component-out residual,
`Y - (prediction - first_moment(k))`. -/
def compute_residual_excl (s : IFS T N M K F) (k : Fin K) (t : Fin T) (m : Fin M) : F :=
  s.Yval t m - (s.compute_prediction t m - s.compute_first_moment k t m)

end IFS

namespace IFS

variable {T N M K : ℕ} {F : Type} [LinearOrderedField F]

/-- Cross-moment matrix `XX = X[:, mask] @ X[:, mask].T` built inside
`_compute_ERSS_summary`. -/
def XXmask (s : IFS T N M K F) (t : Fin T) (n n2 : Fin N) : F :=
  ∑ m ∈ s.get_mask t, s.X n m * s.X n2 m

/-- Entry `[k, l]` of `pt2 = mu_pi @ XX @ mu_pi.T` from
`_compute_ERSS_summary`, where `mu_pi = weight_means[t] * pi`. -/
def pt2 (s : IFS T N M K F) (t : Fin T) (k l : Fin K) : F :=
  ∑ n, ∑ n2, s.weight_means t k n * s.pi k n * s.XXmask t n n2
    * (s.weight_means t l n2 * s.pi l n2)

/-- Embeds `_compute_ERSS_summary`: ERSS from the summary statistics
`YY - 2 YX·mu_pi.sum(0) + pt1 + sum(pt2) - sum(diag(pt2))`. -/
def compute_ERSS_summary (s : IFS T N M K F) (t : Fin T) : F :=
  (∑ m ∈ s.get_mask t, s.Yval t m ^ 2)
    - 2 * ∑ n, (∑ m ∈ s.get_mask t, s.Yval t m * s.X n m) * s.expected_effects t n
    + (∑ k, ∑ n, (s.weight_means t k n ^ 2 + s.weight_vars t k n) * s.pi k n * s.get_diag t n)
    + ((∑ k, ∑ l, s.pt2 t k l) - ∑ k, s.pt2 t k k)

/-- Embeds `_compute_ERSS` (with the default residual): the masked squared
residual plus the masked sum of `mu2 - mu`, where `mu` is the sum of
squared first moments and `mu2` the sum of second moments. -/
def compute_ERSS (s : IFS T N M K F) (t : Fin T) : F :=
  (∑ m ∈ s.get_mask t, s.compute_residual t m ^ 2)
    + ∑ m ∈ s.get_mask t,
        ((∑ k, s.compute_second_moment k t m) - ∑ k, s.compute_first_moment k t m ^ 2)

/-- Embeds `_compute_ERSS3` (with the default residual): the masked squared
residual plus, per component, the masked second moment minus the masked
squared first moment. -/
def compute_ERSS3 (s : IFS T N M K F) (t : Fin T) : F :=
  (∑ m ∈ s.get_mask t, s.compute_residual t m ^ 2)
    + ∑ k, ((∑ m ∈ s.get_mask t, s.compute_second_moment k t m)
        - ∑ m ∈ s.get_mask t, s.compute_first_moment k t m ^ 2)

/-- The total prediction is the covariate prediction plus the sum of the
per-component first moments. -/
lemma prediction_eq_sum_first_moments (s : IFS T N M K F) (t : Fin T) (m : Fin M) :
    s.compute_prediction t m
      = s.compute_covariate_prediction true t m
        + ∑ k, s.compute_first_moment k t m := by
  unfold compute_prediction
  congr 1
  simp only [expected_effects, compute_first_moment, Finset.sum_mul]
  rw [Finset.sum_comm]
  exact Finset.sum_congr rfl fun k _ => Finset.sum_congr rfl fun n _ => by ring

/-- Masked cross products of first moments give the `pt2` matrix. -/
lemma sum_mask_first_mul_first (s : IFS T N M K F) (t : Fin T) (k l : Fin K) :
    ∑ m ∈ s.get_mask t, s.compute_first_moment k t m * s.compute_first_moment l t m
      = s.pt2 t k l := by
  calc ∑ m ∈ s.get_mask t, s.compute_first_moment k t m * s.compute_first_moment l t m
      = ∑ m ∈ s.get_mask t, ∑ n, ∑ n2, s.pi k n * s.weight_means t k n * s.X n m
          * (s.pi l n2 * s.weight_means t l n2 * s.X n2 m) :=
        Finset.sum_congr rfl fun m _ => by
          unfold compute_first_moment
          exact Finset.sum_mul_sum _ _ _ _
    _ = ∑ n, ∑ m ∈ s.get_mask t, ∑ n2, s.pi k n * s.weight_means t k n * s.X n m
          * (s.pi l n2 * s.weight_means t l n2 * s.X n2 m) := Finset.sum_comm
    _ = ∑ n, ∑ n2, ∑ m ∈ s.get_mask t, s.pi k n * s.weight_means t k n * s.X n m
          * (s.pi l n2 * s.weight_means t l n2 * s.X n2 m) :=
        Finset.sum_congr rfl fun n _ => Finset.sum_comm
    _ = s.pt2 t k l := by
        unfold pt2 XXmask
        refine Finset.sum_congr rfl fun n _ => Finset.sum_congr rfl fun n2 _ => ?_
        rw [Finset.mul_sum, Finset.sum_mul]
        exact Finset.sum_congr rfl fun m _ => by ring

/-- Masked sums of second moments give the `pt1` summand. -/
lemma sum_mask_second_moment (s : IFS T N M K F) (t : Fin T) (k : Fin K) :
    ∑ m ∈ s.get_mask t, s.compute_second_moment k t m
      = ∑ n, (s.weight_means t k n ^ 2 + s.weight_vars t k n) * s.pi k n * s.get_diag t n := by
  simp only [compute_second_moment, get_diag, Finset.mul_sum]
  rw [Finset.sum_comm]
  exact Finset.sum_congr rfl fun n _ => Finset.sum_congr rfl fun m _ => by ring

/-- Masked inner products of the observations with the prediction give
the `YX · mu_pi.sum(0)` summand, provided the covariate prediction
vanishes on the channel. -/
lemma sum_mask_Yval_mul_prediction (s : IFS T N M K F) (t : Fin T)
    (hcov : ∀ m, s.compute_covariate_prediction true t m = 0) :
    ∑ m ∈ s.get_mask t, s.Yval t m * s.compute_prediction t m
      = ∑ n, (∑ m ∈ s.get_mask t, s.Yval t m * s.X n m) * s.expected_effects t n := by
  have hp : ∀ m, s.compute_prediction t m
      = ∑ n, s.expected_effects t n * s.X n m := fun m => by
    rw [compute_prediction, hcov m, zero_add]
  calc ∑ m ∈ s.get_mask t, s.Yval t m * s.compute_prediction t m
      = ∑ m ∈ s.get_mask t, s.Yval t m * ∑ n, s.expected_effects t n * s.X n m :=
        Finset.sum_congr rfl fun m _ => by rw [hp m]
    _ = ∑ n, (∑ m ∈ s.get_mask t, s.Yval t m * s.X n m) * s.expected_effects t n := by
        simp only [Finset.mul_sum, Finset.sum_mul]
        rw [Finset.sum_comm]
        exact Finset.sum_congr rfl fun n _ => Finset.sum_congr rfl fun m _ => by ring

/-- Expansion of `_compute_ERSS` into the summary-statistic form, valid
when the covariate prediction vanishes on the channel. -/
lemma ERSS_expand (s : IFS T N M K F) (t : Fin T)
    (hcov : ∀ m, s.compute_covariate_prediction true t m = 0) :
    s.compute_ERSS t
      = (∑ m ∈ s.get_mask t, s.Yval t m ^ 2)
        - 2 * ∑ n, (∑ m ∈ s.get_mask t, s.Yval t m * s.X n m) * s.expected_effects t n
        + (∑ k, ∑ l, s.pt2 t k l)
        - (∑ k, s.pt2 t k k)
        + ∑ k, ∑ n, (s.weight_means t k n ^ 2 + s.weight_vars t k n) * s.pi k n
            * s.get_diag t n := by
  have hsq : ∑ m ∈ s.get_mask t, s.compute_residual t m ^ 2
      = (∑ m ∈ s.get_mask t, s.Yval t m ^ 2)
        - 2 * (∑ m ∈ s.get_mask t, s.Yval t m * s.compute_prediction t m)
        + ∑ m ∈ s.get_mask t, s.compute_prediction t m * s.compute_prediction t m := by
    rw [show ∑ m ∈ s.get_mask t, s.compute_residual t m ^ 2
        = ∑ m ∈ s.get_mask t, (s.Yval t m ^ 2
            - 2 * (s.Yval t m * s.compute_prediction t m)
            + s.compute_prediction t m * s.compute_prediction t m) from
      Finset.sum_congr rfl fun m _ => by unfold compute_residual; ring]
    rw [Finset.sum_add_distrib, Finset.sum_sub_distrib, ← Finset.mul_sum]
  have hpred : ∀ m, s.compute_prediction t m = ∑ k, s.compute_first_moment k t m :=
    fun m => by rw [prediction_eq_sum_first_moments, hcov m, zero_add]
  have hpred2 : ∑ m ∈ s.get_mask t, s.compute_prediction t m * s.compute_prediction t m
      = ∑ k, ∑ l, s.pt2 t k l := by
    have h1 : ∑ m ∈ s.get_mask t, s.compute_prediction t m * s.compute_prediction t m
        = ∑ m ∈ s.get_mask t, ∑ k, ∑ l,
            s.compute_first_moment k t m * s.compute_first_moment l t m := by
      refine Finset.sum_congr rfl fun m _ => ?_
      rw [hpred m, Finset.sum_mul_sum]
    rw [h1, Finset.sum_comm]
    refine Finset.sum_congr rfl fun k _ => ?_
    rw [Finset.sum_comm]
    exact Finset.sum_congr rfl fun l _ => sum_mask_first_mul_first s t k l
  have hcomm2 : ∑ m ∈ s.get_mask t, ∑ k, s.compute_second_moment k t m
      = ∑ k, ∑ m ∈ s.get_mask t, s.compute_second_moment k t m := Finset.sum_comm
  have hcomm1 : ∑ m ∈ s.get_mask t, ∑ k, s.compute_first_moment k t m ^ 2
      = ∑ k, ∑ m ∈ s.get_mask t, s.compute_first_moment k t m ^ 2 := Finset.sum_comm
  have hdiag : ∑ m ∈ s.get_mask t,
      ((∑ k, s.compute_second_moment k t m) - ∑ k, s.compute_first_moment k t m ^ 2)
      = (∑ k, ∑ n, (s.weight_means t k n ^ 2 + s.weight_vars t k n) * s.pi k n
          * s.get_diag t n) - ∑ k, s.pt2 t k k := by
    rw [Finset.sum_sub_distrib, hcomm2, hcomm1]
    congr 1
    · exact Finset.sum_congr rfl fun k _ => sum_mask_second_moment s t k
    · refine Finset.sum_congr rfl fun k _ => ?_
      rw [← sum_mask_first_mul_first s t k k]
      exact Finset.sum_congr rfl fun m _ => pow_two (s.compute_first_moment k t m)
  unfold compute_ERSS
  rw [hsq, hpred2, hdiag, sum_mask_Yval_mul_prediction s t hcov]
  ring

/-- Lemma: `_compute_ERSS` and `_compute_ERSS3` differ only in the order of the
component and sample summations. -/
lemma ERSS_eq_ERSS3 (s : IFS T N M K F) (t : Fin T) :
    s.compute_ERSS t = s.compute_ERSS3 t := by
  unfold compute_ERSS compute_ERSS3
  congr 1
  have hcomm2 : ∑ m ∈ s.get_mask t, ∑ k, s.compute_second_moment k t m
      = ∑ k, ∑ m ∈ s.get_mask t, s.compute_second_moment k t m := Finset.sum_comm
  have hcomm1 : ∑ m ∈ s.get_mask t, ∑ k, s.compute_first_moment k t m ^ 2
      = ∑ k, ∑ m ∈ s.get_mask t, s.compute_first_moment k t m ^ 2 := Finset.sum_comm
  rw [Finset.sum_sub_distrib, hcomm2, hcomm1, ← Finset.sum_sub_distrib]

end IFS

/-- Concrete sample-engine state with an active covariate: one tissue,
one sample, covariate value 1 with fitted weight 1, so the covariate
prediction is 1 while the component weights are zero. -/
def c2state : IFS 1 1 1 1 ℚ :=
  ⟨fun _ _ => 1, fun _ _ => some 1, fun _ _ _ => 0, fun _ _ _ => 1,
   fun _ _ => 1, fun _ => 1, fun _ _ => 1, fun _ _ => 1, fun _ => 1, fun _ => 1,
   some (fun _ _ _ => 1), fun _ => 1, fun _ _ => 1, fun _ _ => true⟩

/-- C2 counterexample: with a nonzero covariate prediction the three
ERSS computations disagree.  `_compute_ERSS` (and `_compute_ERSS3`) use
the covariate-inclusive residual, while `_compute_ERSS_summary`
overwrites its residual with an expansion built only from `Y`, `X`, the
weights and `pi`: at this state the residual is exactly the covariate
prediction away from `Y`, so the summary value is 2 while
`_compute_ERSS` returns 1. -/
theorem C2_ERSS_counterexample :
    c2state.compute_covariate_prediction true 0 0 = 1
    ∧ c2state.compute_ERSS_summary 0 ≠ c2state.compute_ERSS 0 := by
  constructor
  · simp [IFS.compute_covariate_prediction, c2state]
  · simp only [IFS.compute_ERSS_summary, IFS.compute_ERSS, IFS.compute_residual,
      IFS.compute_prediction, IFS.compute_covariate_prediction,
      IFS.compute_first_moment, IFS.compute_second_moment, IFS.expected_effects,
      IFS.get_diag, IFS.get_mask, IFS.pt2, IFS.XXmask, IFS.Yval, c2state]
    norm_num [Fin.sum_univ_one, Finset.sum_filter, Finset.sum_range_one]

/-- C2 amended: `_compute_ERSS` and `_compute_ERSS3` agree exactly for
every model state; `_compute_ERSS_summary` agrees with both whenever the
covariate prediction is zero — in particular for every model built with
`covariates=None` — since only then does the summary expansion describe
the same residual. -/
theorem C2_ERSS_equivalence {T N M K : ℕ} (s : IFS T N M K ℚ) (t : Fin T)
    (hcov : ∀ t2 m, s.compute_covariate_prediction true t2 m = 0) :
    s.compute_ERSS_summary t = s.compute_ERSS t
      ∧ s.compute_ERSS t = s.compute_ERSS3 t := by
  constructor
  · rw [IFS.ERSS_expand s t (hcov t)]
    unfold IFS.compute_ERSS_summary
    ring
  · exact IFS.ERSS_eq_ERSS3 s t

/-- Concrete covariate-free sample-engine state for the C2 witness. -/
def c2wstate : IFS 1 1 1 1 ℚ :=
  ⟨fun _ _ => 2, fun _ _ => some 3, fun _ _ _ => 1, fun _ _ _ => 1,
   fun _ _ => 1, fun _ => 1, fun _ _ => 1, fun _ _ => 1, fun _ => 1, fun _ => 1,
   none, fun _ => 0, fun _ _ => 0, fun _ _ => false⟩

/-- Witness for the amended C2 at a concrete covariate-free state. -/
theorem C2_ERSS_equivalence_witness :
    (∀ t2 m, c2wstate.compute_covariate_prediction true t2 m = 0)
    ∧ (c2wstate.compute_ERSS_summary 0 = c2wstate.compute_ERSS 0
      ∧ c2wstate.compute_ERSS 0 = c2wstate.compute_ERSS3 0) :=
  ⟨fun _ _ => rfl, C2_ERSS_equivalence c2wstate 0 fun _ _ => rfl⟩

/-- State of the covariance-based engine `CAFEH2` (cafeh2.py).  The
derived transforms `R2invR1 = solve(R2, R1)` and `R1R2invR1 = R1 @
R2invR1` are computed once at construction and stored, so they appear as
fields here. -/
structure CAFEH2 (T N K : ℕ) (F : Type) where
  R1 : Fin N → Fin N → F
  R2invR1 : Fin N → Fin N → F
  R1R2invR1 : Fin N → Fin N → F
  Y : Fin T → Fin N → F
  pi : Fin K → Fin N → F
  weight_means : Fin T → Fin K → Fin N → F
  weight_vars : Fin T → Fin K → Fin N → F
  active : Fin T → Fin K → F
  prior_precision : Fin T → Fin K → F
  prior_component_precision : Fin K → F
  prior_pi : Fin N → F
  alpha0 : F
  beta0 : F

namespace CAFEH2

variable {T N K : ℕ} {F : Type} [LinearOrderedField F]

/-- Embeds `prior_variance()`: `1 / (prior_precision * prior_component_precision)`. -/
def prior_variance (s : CAFEH2 T N K F) (t : Fin T) (k : Fin K) : F :=
  1 / (s.prior_precision t k * s.prior_component_precision k)

/-- Body of `_compute_prediction_component_hash` (2-d `R1` branch):
`active[:, None] * (pi * weights) @ R1`. -/
def compute_prediction_component (s : CAFEH2 T N K F) (k : Fin K) (t : Fin T) (n : Fin N) : F :=
  s.active t k * ∑ n2, s.pi k n2 * s.weight_means t k n2 * s.R1 n2 n

/-- The content fingerprint used by `compute_prediction_component` as its
cache key: the byte representation of `pi[k] @ weight_means[:, k].T`, a
vector of one inner product per tissue.  Note `active` does not enter. -/
def prediction_component_hash_key (s : CAFEH2 T N K F) (k : Fin K) (t : Fin T) : F :=
  ∑ n, s.pi k n * s.weight_means t k n

/-- Embeds `compute_prediction()`: the sum of all component contributions. -/
def compute_prediction (s : CAFEH2 T N K F) (t : Fin T) (n : Fin N) : F :=
  ∑ k, s.compute_prediction_component k t n

/-- Embeds `compute_residual(k)`: `Y - (prediction - component k)`. -/
def compute_residual_excl (s : CAFEH2 T N K F) (k : Fin K) (t : Fin T) (n : Fin N) : F :=
  s.Y t n - (s.compute_prediction t n - s.compute_prediction_component k t n)

/-- Modelled from the spec: `get_expected_weights` from the repository's
model_queries module (not under src/).  The spec exposes an expected
effect size per (outcome, component) under the assignment distribution;
`sort_components` uses its per-component maximum absolute value as the
importance key. -/
def get_expected_weights (s : CAFEH2 T N K F) (t : Fin T) (k : Fin K) : F :=
  ∑ n, s.weight_means t k n * s.pi k n

/-- Embeds `_update_weight_component(k, ARD=False)` with the default
residual: per tissue, `precision = diag(R1R2invR1) + 1/prior_variance`,
`variance = 1/precision`, `mean = (r_k @ R2invR1) * variance`, written
into component `k` of `weight_vars` and `weight_means`. -/
def update_weight_component (s : CAFEH2 T N K F) (k : Fin K) : CAFEH2 T N K F :=
  let r_k := s.compute_residual_excl k
  { s with
    weight_vars := fun t k2 n =>
      if k2 = k then 1 / (s.R1R2invR1 n n + 1 / s.prior_variance t k)
      else s.weight_vars t k2 n
    weight_means := fun t k2 n =>
      if k2 = k then (∑ n2, r_k t n2 * s.R2invR1 n2 n)
          * (1 / (s.R1R2invR1 n n + 1 / s.prior_variance t k))
      else s.weight_means t k2 n }

end CAFEH2

namespace CAFEH2

variable {T N K : ℕ} {F : Type} [LinearOrderedField F]

/-- The importance key of `sort_components`:
`np.abs(get_expected_weights()).max(0)`. -/
def sort_key (s : CAFEH2 (T + 1) N K F) (k : Fin K) : F :=
  Finset.univ.sup' Finset.univ_nonempty fun t => |s.get_expected_weights t k|

/-- The component order of `sort_components`,
`np.flip(np.argsort(sort_key))`: the component indices listed by
descending importance key. -/
def sort_order_list (s : CAFEH2 (T + 1) N K F) : List (Fin K) :=
  List.insertionSort (fun i j => s.sort_key j ≤ s.sort_key i) (List.finRange K)

lemma sort_order_list_length (s : CAFEH2 (T + 1) N K F) :
    (s.sort_order_list).length = K := by
  unfold sort_order_list
  rw [(List.perm_insertionSort _ _).length_eq, List.length_finRange]

/-- The component order of `sort_components` as a function on indices. -/
def sort_order (s : CAFEH2 (T + 1) N K F) (i : Fin K) : Fin K :=
  (s.sort_order_list).get (Fin.cast (sort_order_list_length s).symm i)

/-- Embeds `sort_components`: reorder `weight_means`, `active` and `pi` so that
components with the largest weights come first (the other fields are not
permuted by the source). -/
def sort_components (s : CAFEH2 (T + 1) N K F) : CAFEH2 (T + 1) N K F :=
  { s with
    pi := fun k => s.pi (s.sort_order k)
    weight_means := fun t k n => s.weight_means t (s.sort_order k) n
    active := fun t k => s.active t (s.sort_order k) }

lemma sort_order_list_nodup (s : CAFEH2 (T + 1) N K F) :
    (s.sort_order_list).Nodup :=
  (List.perm_insertionSort _ _).nodup_iff.mpr (List.nodup_finRange K)

lemma sort_order_bijective (s : CAFEH2 (T + 1) N K F) :
    Function.Bijective s.sort_order := by
  rw [← Finite.injective_iff_bijective]
  intro i j h
  have hval := ((sort_order_list_nodup s).get_inj_iff).mp h
  have hv : i.val = j.val := by simpa using congrArg Fin.val hval
  exact Fin.ext hv

end CAFEH2

/-- C3: reordering components via `sort_components` (by descending
maximum absolute expected weight) leaves the model's total prediction
unchanged: `compute_prediction()` before and after the reordering agree
at every entry under exact arithmetic. -/
theorem C3_sort_components_preserves_prediction {T N K : ℕ}
    (s : CAFEH2 (T + 1) N K ℚ) (t : Fin (T + 1)) (n : Fin N) :
    (s.sort_components).compute_prediction t n = s.compute_prediction t n := by
  unfold CAFEH2.compute_prediction
  calc ∑ k, (s.sort_components).compute_prediction_component k t n
      = ∑ k, s.compute_prediction_component (s.sort_order k) t n :=
        Finset.sum_congr rfl fun k _ => rfl
    _ = ∑ k, s.compute_prediction_component k t n :=
        (CAFEH2.sort_order_bijective s).sum_comp
          fun k => s.compute_prediction_component k t n

/-- Concrete covariance-engine state used to exercise the cache key:
one tissue, one variant, one component, with the component active. -/
def c1CafehActive : CAFEH2 1 1 1 ℚ :=
  ⟨fun _ _ => 1, fun _ _ => 1, fun _ _ => 1, fun _ _ => 0,
   fun _ _ => 1, fun _ _ _ => 1, fun _ _ _ => 1, fun _ _ => 1,
   fun _ _ => 1, fun _ => 1, fun _ => 1, 1, 1⟩

/-- The same state with `active` set to 0: the component contribution
changes but the cache fingerprint does not mention `active`. -/
def c1CafehInactive : CAFEH2 1 1 1 ℚ :=
  ⟨fun _ _ => 1, fun _ _ => 1, fun _ _ => 1, fun _ _ => 0,
   fun _ _ => 1, fun _ _ _ => 1, fun _ _ _ => 1, fun _ _ => 0,
   fun _ _ => 1, fun _ => 1, fun _ => 1, 1, 1⟩

/-- Concrete sample-engine state with weight mean 4 and variance 1. -/
def c1IfsA : IFS 1 1 1 1 ℚ :=
  ⟨fun _ _ => 1, fun _ _ => some 1, fun _ _ _ => 4, fun _ _ _ => 1,
   fun _ _ => 1, fun _ => 1, fun _ _ => 1, fun _ _ => 1, fun _ => 1, fun _ => 1,
   none, fun _ => 0, fun _ _ => 0, fun _ _ => false⟩

/-- The same state with weight mean 1 and variance 2: the second moment
changes from 17 to 3 but the fingerprint `pi @ (weight + var**2).T` is 5
in both states. -/
def c1IfsB : IFS 1 1 1 1 ℚ :=
  ⟨fun _ _ => 1, fun _ _ => some 1, fun _ _ _ => 1, fun _ _ _ => 2,
   fun _ _ => 1, fun _ => 1, fun _ _ => 1, fun _ _ => 1, fun _ => 1, fun _ => 1,
   none, fun _ => 0, fun _ _ => 0, fun _ _ => false⟩

/-- C1: the memoized component contributions are keyed by a lossy content
fingerprint, so a state change need not change the cache key.  In the
covariance engine, toggling `active` leaves `pi[k] @ weight_means[:, k].T`
unchanged while the contribution changes; in the sample engine the
second-moment key hashes `weight + var**2` while the value uses
`weight**2 + var`, so distinct states collide on the key with distinct
second moments.  A lookup after such a mutation returns the stale cached
array, contradicting the claim that any state change invalidates the
previous entry. -/
theorem C1_fingerprint_collision :
    (∀ t, c1CafehActive.prediction_component_hash_key 0 t
        = c1CafehInactive.prediction_component_hash_key 0 t)
    ∧ c1CafehActive.compute_prediction_component 0 0 0
        ≠ c1CafehInactive.compute_prediction_component 0 0 0
    ∧ (∀ t, c1IfsA.second_moment_hash_key 0 t = c1IfsB.second_moment_hash_key 0 t)
    ∧ c1IfsA.compute_second_moment 0 0 0 ≠ c1IfsB.compute_second_moment 0 0 0 := by
  refine ⟨fun t => ?_, ?_, fun t => ?_, ?_⟩ <;>
    simp [c1CafehActive, c1CafehInactive, c1IfsA, c1IfsB,
      CAFEH2.prediction_component_hash_key, CAFEH2.compute_prediction_component,
      IFS.second_moment_hash_key, IFS.compute_second_moment] <;> norm_num

namespace IFS

variable {T N M K : ℕ} {F : Type} [LinearOrderedField F]

/-- The in-place zeroing `r_k[np.isnan(self.Y)] = 0` that the weight and
assignment updates apply to the residual array they receive. -/
def zero_nan (s : IFS T N M K F) (r : Fin T → Fin M → F) (t : Fin T) (m : Fin M) : F :=
  if (s.Y t m).isSome then r t m else 0

/-- Local `precision` of `_update_weight_component`:
`diag * expected_tissue_precision + expected_weight_precision[:, k]`. -/
def weight_update_precision (s : IFS T N M K F) (k : Fin K) (t : Fin T) (n : Fin N) : F :=
  s.get_diag t n * s.expected_tissue_precision t + s.expected_weight_precision t k

/-- Local `mean` of `_update_weight_component`:
`(variance * expected_tissue_precision) * (r_k @ X.T)` with the
NaN-zeroed residual. -/
def weight_update_mean (s : IFS T N M K F) (k : Fin K) (r : Fin T → Fin M → F)
    (t : Fin T) (n : Fin N) : F :=
  1 / s.weight_update_precision k t n * s.expected_tissue_precision t
    * ∑ m, s.zero_nan r t m * s.X n m

/-- Embeds `_update_weight_component(k, residual)`: zero the NaN positions of
the received residual array in place, overwrite the posterior weight
variance and mean of component `k` by the conjugate-Gaussian rule, and
return the updated state together with the mutated residual array. -/
def update_weight_component (s : IFS T N M K F) (k : Fin K) (r : Fin T → Fin M → F) :
    IFS T N M K F × (Fin T → Fin M → F) :=
  ({ s with
      weight_vars := fun t k2 n =>
        if k2 = k then 1 / s.weight_update_precision k t n else s.weight_vars t k2 n
      weight_means := fun t k2 n =>
        if k2 = k then s.weight_update_mean k r t n else s.weight_means t k2 n },
   s.zero_nan r)

/-- Embeds `_update_weight_component(k)` with the default residual
`compute_residual(k)`. -/
def update_weight_component_default (s : IFS T N M K F) (k : Fin K) :
    IFS T N M K F × (Fin T → Fin M → F) :=
  s.update_weight_component k (s.compute_residual_excl k)

lemma get_diag_nonneg (s : IFS T N M K F) (t : Fin T) (n : Fin N) :
    0 ≤ s.get_diag t n :=
  Finset.sum_nonneg fun m _ => sq_nonneg (s.X n m)

end IFS

/-- C5: in either engine, the weight update overwrites component `k`'s
posterior by the closed-form conjugate-Gaussian rule — variance is the
reciprocal of `diag(design^T design) * noise_precision + 1/prior
variance`, mean is `variance * noise_precision * (residual @ design^T)`,
with the covariance engine's noise precision identically one — and the
new variance is strictly positive (whenever the Gamma precision
parameters, respectively the transform diagonal and prior variance, are
in range). -/
theorem C5_weight_update_conjugate_rule {T N M K T3 N3 K3 : ℕ}
    (s : IFS T N M K ℚ)
    (k : Fin K) (r : Fin T → Fin M → ℚ) (t : Fin T) (n : Fin N)
    (s3 : CAFEH2 T3 N3 K3 ℚ) (k3 : Fin K3) (t3 : Fin T3) (n3 : Fin N3)
    (hta : 0 < s.tissue_precision_a t) (htb : 0 < s.tissue_precision_b t)
    (hwa : 0 < s.weight_precision_a t k) (hwb : 0 < s.weight_precision_b t k)
    (hR : 0 ≤ s3.R1R2invR1 n3 n3) (hpv : 0 < s3.prior_variance t3 k3) :
    ((s.update_weight_component k r).1.weight_vars t k n
        = 1 / (s.get_diag t n * s.expected_tissue_precision t
            + s.expected_weight_precision t k))
    ∧ ((s.update_weight_component k r).1.weight_means t k n
        = (s.update_weight_component k r).1.weight_vars t k n
            * s.expected_tissue_precision t
            * ∑ m, s.zero_nan r t m * s.X n m)
    ∧ 0 < (s.update_weight_component k r).1.weight_vars t k n
    ∧ ((s3.update_weight_component k3).weight_vars t3 k3 n3
        = 1 / (s3.R1R2invR1 n3 n3 + 1 / s3.prior_variance t3 k3))
    ∧ ((s3.update_weight_component k3).weight_means t3 k3 n3
        = (∑ n2, s3.compute_residual_excl k3 t3 n2 * s3.R2invR1 n2 n3)
            * (s3.update_weight_component k3).weight_vars t3 k3 n3)
    ∧ 0 < (s3.update_weight_component k3).weight_vars t3 k3 n3 := by
  have hetau : 0 < s.expected_tissue_precision t := div_pos hta htb
  have healpha : 0 < s.expected_weight_precision t k := div_pos hwa hwb
  have hprec : 0 < s.weight_update_precision k t n :=
    add_pos_of_nonneg_of_pos
      (mul_nonneg (IFS.get_diag_nonneg s t n) hetau.le) healpha
  have hprec3 : 0 < s3.R1R2invR1 n3 n3 + 1 / s3.prior_variance t3 k3 :=
    add_pos_of_nonneg_of_pos hR (one_div_pos.mpr hpv)
  refine ⟨by simp [IFS.update_weight_component, IFS.weight_update_precision],
    ?_, ?_, ?_, ?_, ?_⟩
  · simp [IFS.update_weight_component, IFS.weight_update_mean]
  · simpa [IFS.update_weight_component] using one_div_pos.mpr hprec
  · simp [CAFEH2.update_weight_component]
  · simp [CAFEH2.update_weight_component]
  · simpa [CAFEH2.update_weight_component] using one_div_pos.mpr hprec3

/-- Concrete sample-engine state for the C5 witness. -/
def c5state : IFS 1 1 1 1 ℚ :=
  ⟨fun _ _ => 2, fun _ _ => some 3, fun _ _ _ => 0, fun _ _ _ => 1,
   fun _ _ => 1, fun _ => 1, fun _ _ => 1, fun _ _ => 1, fun _ => 1, fun _ => 1,
   none, fun _ => 0, fun _ _ => 0, fun _ _ => false⟩

/-- Concrete covariance-engine state for the C5 witness. -/
def c5cafeh : CAFEH2 1 1 1 ℚ :=
  ⟨fun _ _ => 1, fun _ _ => 1, fun _ _ => 1, fun _ _ => 2,
   fun _ _ => 1, fun _ _ _ => 0, fun _ _ _ => 1, fun _ _ => 1,
   fun _ _ => 1, fun _ => 1, fun _ => 1, 1, 1⟩

/-- Witness for C5 at concrete states of both engines. -/
theorem C5_weight_update_conjugate_rule_witness :
    (0 < c5state.tissue_precision_a 0 ∧ 0 < c5state.tissue_precision_b 0
      ∧ 0 < c5state.weight_precision_a 0 0 ∧ 0 < c5state.weight_precision_b 0 0
      ∧ 0 ≤ c5cafeh.R1R2invR1 0 0 ∧ 0 < c5cafeh.prior_variance 0 0)
    ∧ (((c5state.update_weight_component 0 fun _ _ => 5).1.weight_vars 0 0 0
        = 1 / (c5state.get_diag 0 0 * c5state.expected_tissue_precision 0
            + c5state.expected_weight_precision 0 0))
      ∧ ((c5state.update_weight_component 0 fun _ _ => 5).1.weight_means 0 0 0
        = (c5state.update_weight_component 0 fun _ _ => 5).1.weight_vars 0 0 0
            * c5state.expected_tissue_precision 0
            * ∑ m, c5state.zero_nan (fun _ _ => 5) 0 m * c5state.X 0 m)
      ∧ 0 < (c5state.update_weight_component 0 fun _ _ => 5).1.weight_vars 0 0 0
      ∧ ((c5cafeh.update_weight_component 0).weight_vars 0 0 0
          = 1 / (c5cafeh.R1R2invR1 0 0 + 1 / c5cafeh.prior_variance 0 0))
      ∧ ((c5cafeh.update_weight_component 0).weight_means 0 0 0
          = (∑ n2, c5cafeh.compute_residual_excl 0 0 n2 * c5cafeh.R2invR1 n2 0)
              * (c5cafeh.update_weight_component 0).weight_vars 0 0 0)
      ∧ 0 < (c5cafeh.update_weight_component 0).weight_vars 0 0 0) :=
  ⟨⟨by norm_num [c5state], by norm_num [c5state], by norm_num [c5state],
    by norm_num [c5state], by norm_num [c5cafeh],
    by norm_num [c5cafeh, CAFEH2.prior_variance]⟩,
   C5_weight_update_conjugate_rule c5state 0 (fun _ _ => 5) 0 0 c5cafeh 0 0 0
    (by norm_num [c5state]) (by norm_num [c5state]) (by norm_num [c5state])
    (by norm_num [c5state]) (by norm_num [c5cafeh])
    (by norm_num [c5cafeh, CAFEH2.prior_variance])⟩

/-- Embeds `np.clip(x, lo, hi)`. -/
def np_clip {F : Type} [LinearOrderedField F] (x lo hi : F) : F := min (max x lo) hi

namespace CAFEH2

variable {T N K : ℕ} {F : Type} [LinearOrderedField F]

/-- The ARD second moment
`(weight_vars[:, k] + weight_means[:, k]**2) @ pi[k]` of
`_update_weight_component(..., ARD=True)`. -/
def ARD_second_moment (s : CAFEH2 T N K F) (k : Fin K) (t : Fin T) : F :=
  ∑ n, (s.weight_vars t k n + s.weight_means t k n ^ 2) * s.pi k n

/-- Embeds `_update_weight_component(k, ARD=True)` with the default residual:
first the ARD overwrite of `prior_precision[:, k]` with the Gamma
posterior mode `(alpha - 1) / beta` clipped to `[1e-10, 1e5]`, then the
conjugate-Gaussian overwrite of `weight_vars[:, k]` and
`weight_means[:, k]` using the updated prior variance. -/
def update_weight_component_ARD (s : CAFEH2 T N K F) (k : Fin K) : CAFEH2 T N K F :=
  let r_k := s.compute_residual_excl k
  let alpha := s.alpha0 + 1 / 2
  let beta := fun t => s.beta0
    + ARD_second_moment s k t / 2 * s.prior_component_precision k
  let s1 : CAFEH2 T N K F :=
    { s with prior_precision := fun t k2 =>
        if k2 = k then np_clip ((alpha - 1) / beta t) (1e-10) (1e5)
        else s.prior_precision t k2 }
  { s1 with
    weight_vars := fun t k2 n =>
      if k2 = k then 1 / (s.R1R2invR1 n n + 1 / s1.prior_variance t k)
      else s1.weight_vars t k2 n
    weight_means := fun t k2 n =>
      if k2 = k then (∑ n2, r_k t n2 * s.R2invR1 n2 n)
          * (1 / (s.R1R2invR1 n n + 1 / s1.prior_variance t k))
      else s1.weight_means t k2 n }

/-- A sequence of ARD weight updates over a list of components, as the
fit loop or `update_weights(ARD=True)` performs them. -/
def run_ARD_updates (s : CAFEH2 T N K F) (ks : List (Fin K)) : CAFEH2 T N K F :=
  ks.foldl update_weight_component_ARD s

lemma np_clip_bounds (x : F) :
    1e-10 ≤ np_clip x (1e-10) (1e5) ∧ np_clip x (1e-10) (1e5) ≤ 1e5 :=
  ⟨le_min (le_max_right x 1e-10) (by norm_num), min_le_right _ _⟩

lemma ARD_update_bounds (s : CAFEH2 T N K F) (k : Fin K)
    (h : ∀ t2 k2, 0 < s.prior_precision t2 k2 ∧ s.prior_precision t2 k2 ≤ 1e5) :
    ∀ t2 k2, 0 < (s.update_weight_component_ARD k).prior_precision t2 k2
      ∧ (s.update_weight_component_ARD k).prior_precision t2 k2 ≤ 1e5 := by
  intro t2 k2
  show 0 < (if k2 = k then _ else _) ∧ (if k2 = k then _ else _) ≤ 1e5
  by_cases hk : k2 = k
  · rw [if_pos hk]
    refine ⟨lt_of_lt_of_le (by norm_num) (np_clip_bounds _).1, (np_clip_bounds _).2⟩
  · rw [if_neg hk]
    exact h t2 k2

lemma run_ARD_updates_bounds (s : CAFEH2 T N K F) (ks : List (Fin K))
    (h : ∀ t2 k2, 0 < s.prior_precision t2 k2 ∧ s.prior_precision t2 k2 ≤ 1e5) :
    ∀ t2 k2, 0 < (s.run_ARD_updates ks).prior_precision t2 k2
      ∧ (s.run_ARD_updates ks).prior_precision t2 k2 ≤ 1e5 := by
  induction ks generalizing s with
  | nil => exact h
  | cons k ks ih => exact ih _ (ARD_update_bounds s k h)

lemma run_ARD_updates_pcp (s : CAFEH2 T N K F) (ks : List (Fin K)) :
    (s.run_ARD_updates ks).prior_component_precision
      = s.prior_component_precision := by
  induction ks generalizing s with
  | nil => rfl
  | cons k ks ih => exact ih _

end CAFEH2

/-- C7: with ARD enabled, the covariance-engine weight update overwrites
`prior_precision[:, k]` with the Gamma posterior mode `(alpha - 1)/beta`
clipped to `[1e-10, 1e5]`; consequently, after any sequence of ARD
updates every prior-precision entry stays strictly positive and at most
`1e5` (given in-range initial entries), and the prior variance used by
the Gaussian weight update stays strictly positive, never degenerate. -/
theorem C7_ARD_precision_clipped {T N K : ℕ} (s : CAFEH2 T N K ℚ)
    (ks : List (Fin K)) (k : Fin K) (t : Fin T)
    (hinit : ∀ t2 k2, 0 < s.prior_precision t2 k2 ∧ s.prior_precision t2 k2 ≤ 1e5)
    (hcomp : ∀ k2, 0 < s.prior_component_precision k2) :
    ((s.update_weight_component_ARD k).prior_precision t k
      = np_clip ((s.alpha0 + 1 / 2 - 1)
          / (s.beta0 + s.ARD_second_moment k t / 2 * s.prior_component_precision k))
          (1e-10) (1e5))
    ∧ (0 < (s.run_ARD_updates ks).prior_precision t k
        ∧ (s.run_ARD_updates ks).prior_precision t k ≤ 1e5)
    ∧ 0 < (s.run_ARD_updates ks).prior_variance t k := by
  refine ⟨by simp [CAFEH2.update_weight_component_ARD], ?_, ?_⟩
  · exact CAFEH2.run_ARD_updates_bounds s ks hinit t k
  · have hpp := (CAFEH2.run_ARD_updates_bounds s ks hinit t k).1
    have hpcp : 0 < (s.run_ARD_updates ks).prior_component_precision k := by
      rw [CAFEH2.run_ARD_updates_pcp]
      exact hcomp k
    exact one_div_pos.mpr (mul_pos hpp hpcp)

/-- Concrete covariance-engine state for the C7 witness. -/
def c7state : CAFEH2 1 1 1 ℚ :=
  ⟨fun _ _ => 1, fun _ _ => 1, fun _ _ => 1, fun _ _ => 0,
   fun _ _ => 1, fun _ _ _ => 0, fun _ _ _ => 1, fun _ _ => 1,
   fun _ _ => 1, fun _ => 1, fun _ => 1, 1, 1e-10⟩

/-- Witness for C7 at a concrete state and the update sequence `[0]`. -/
theorem C7_ARD_precision_clipped_witness :
    ((∀ t2 k2, 0 < c7state.prior_precision t2 k2
        ∧ c7state.prior_precision t2 k2 ≤ 1e5)
      ∧ (∀ k2, 0 < c7state.prior_component_precision k2))
    ∧ (((c7state.update_weight_component_ARD 0).prior_precision 0 0
        = np_clip ((c7state.alpha0 + 1 / 2 - 1)
            / (c7state.beta0 + c7state.ARD_second_moment 0 0 / 2
                * c7state.prior_component_precision 0))
            (1e-10) (1e5))
      ∧ (0 < (c7state.run_ARD_updates [0]).prior_precision 0 0
          ∧ (c7state.run_ARD_updates [0]).prior_precision 0 0 ≤ 1e5)
      ∧ 0 < (c7state.run_ARD_updates [0]).prior_variance 0 0) :=
  ⟨⟨fun t2 k2 => ⟨by norm_num [c7state], by norm_num [c7state]⟩,
    fun k2 => by norm_num [c7state]⟩,
   C7_ARD_precision_clipped c7state [0] 0 0
    (fun t2 k2 => ⟨by norm_num [c7state], by norm_num [c7state]⟩)
    (fun k2 => by norm_num [c7state])⟩

noncomputable section

/-- Modelled from the spec: `normal_kl` from the repository's kls module
(not under src/), the KL divergence between the Gaussians N(mean, var)
and N(mean0, var0) — the weight-posterior-to-prior Occam penalty of the
spec. -/
def normal_kl (mean var mean0 var0 : ℝ) : ℝ :=
  (Real.log (var0 / var) + var / var0 + (mean - mean0) ^ 2 / var0 - 1) / 2

/-- Modelled from the spec: `categorical_kl` from the repository's kls
module (not under src/), the KL divergence between two categorical
distributions. -/
def categorical_kl {N : ℕ} (p q : Fin N → ℝ) : ℝ :=
  ∑ n, p n * (Real.log (p n) - Real.log (q n))

/-- The numerically stable max-subtraction softmax used by both
assignment updates: `p = exp(score - max(score))`, then `p / p.sum()`. -/
def softmax {N : ℕ} (v : Fin (N + 1) → ℝ) (n : Fin (N + 1)) : ℝ :=
  Real.exp (v n - Finset.univ.sup' Finset.univ_nonempty v)
    / ∑ n2, Real.exp (v n2 - Finset.univ.sup' Finset.univ_nonempty v)

lemma softmax_nonneg {N : ℕ} (v : Fin (N + 1) → ℝ) (n : Fin (N + 1)) :
    0 ≤ softmax v n :=
  div_nonneg (Real.exp_nonneg _) (Finset.sum_nonneg fun _ _ => Real.exp_nonneg _)

lemma softmax_sum_one {N : ℕ} (v : Fin (N + 1) → ℝ) :
    ∑ n, softmax v n = 1 := by
  unfold softmax
  rw [← Finset.sum_div]
  exact div_self
    (ne_of_gt (Finset.sum_pos (fun n _ => Real.exp_pos _) Finset.univ_nonempty))

namespace CAFEH2

/-- The unnormalized log-score of `_update_pi_component` (covariance
engine): per tissue, the data fit `(r_k @ R2invR1) * weight_means` minus
half the second moment times the transform diagonal minus the weight KL,
contracted against the activity column. -/
def pi_update_score {T N K : ℕ} (s : CAFEH2 T N K ℝ) (k : Fin K)
    (r : Fin T → Fin N → ℝ) (n : Fin N) : ℝ :=
  ∑ t, ((∑ n2, r t n2 * s.R2invR1 n2 n) * s.weight_means t k n
      - 1 / 2 * (s.weight_means t k n ^ 2 + s.weight_vars t k n) * s.R1R2invR1 n n
      - normal_kl (s.weight_means t k n) (s.weight_vars t k n) 0
          (s.prior_variance t k)) * s.active t k

/-- Embeds `_update_pi_component(k, residual)` (covariance engine): overwrite
row `k` of `pi` with the max-subtraction softmax of the scores. -/
def update_pi_component {T N K : ℕ} (s : CAFEH2 T (N + 1) K ℝ) (k : Fin K)
    (r : Fin T → Fin (N + 1) → ℝ) : CAFEH2 T (N + 1) K ℝ :=
  { s with pi := fun k2 n =>
      if k2 = k then softmax (s.pi_update_score k r) n else s.pi k2 n }

end CAFEH2

namespace IFS

/-- The unnormalized log-score of `_update_pi_component` (sample
engine): the data-fit terms `tmp1 + tmp2` and the negative weight KL
`tmp3`, summed over tissues, plus the log prior over variants; the
received residual has its NaN positions zeroed first. -/
def pi_update_score {T N M K : ℕ} (s : IFS T N M K ℝ) (k : Fin K)
    (r : Fin T → Fin M → ℝ) (n : Fin N) : ℝ :=
  (∑ t,
    (-(1 / 2) * s.expected_tissue_precision t
        * (-2 * (∑ m, s.zero_nan r t m * s.X n m) * s.weight_means t k n
          + s.weight_means t k n ^ 2 * s.get_diag t n)
      + -(1 / 2) * s.expected_tissue_precision t * s.weight_vars t k n * s.get_diag t n
      + -normal_kl (s.weight_means t k n) (s.weight_vars t k n) 0
          (1 / s.expected_weight_precision t k)))
    + Real.log (s.prior_pi n)

/-- Embeds `_update_pi_component(k, residual)` (sample engine): zero the NaN
positions of the received residual array in place, overwrite row `k` of
`pi` with the max-subtraction softmax of the scores, and return the
updated state together with the mutated residual array. -/
def update_pi_component {T N M K : ℕ} (s : IFS T (N + 1) M K ℝ) (k : Fin K)
    (r : Fin T → Fin M → ℝ) : IFS T (N + 1) M K ℝ × (Fin T → Fin M → ℝ) :=
  ({ s with pi := fun k2 n =>
      if k2 = k then softmax (s.pi_update_score k r) n else s.pi k2 n },
   s.zero_nan r)

/-- The residual array as the fit loop hands it to
`_update_weight_component(l)`: the running residual with component `l`'s
first moment added back. -/
def sweep_weight_input {T N M K : ℕ} (s : IFS T N M K ℝ) (l : Fin K)
    (r : Fin T → Fin M → ℝ) : Fin T → Fin M → ℝ :=
  fun t m => r t m + s.compute_first_moment l t m

/-- The residual array `_update_pi_component(l)` observes inside one
component pass of the fit loop: the same mutated array that
`_update_weight_component(l)` wrote its zeroes into. -/
def sweep_pi_input {T N M K : ℕ} (s : IFS T N M K ℝ) (l : Fin K)
    (r : Fin T → Fin M → ℝ) : Fin T → Fin M → ℝ :=
  (s.update_weight_component l (s.sweep_weight_input l r)).2

/-- One component pass of `fit`: add back the first moment, update
weights, update pi — both mutating the shared residual array in place —
then subtract the updated component's first moment from that array. -/
def fit_component_step {T N M K : ℕ} (s : IFS T (N + 1) M K ℝ) (l : Fin K)
    (r : Fin T → Fin M → ℝ) : IFS T (N + 1) M K ℝ × (Fin T → Fin M → ℝ) :=
  let s1 := (s.update_weight_component l (s.sweep_weight_input l r)).1
  let p := s1.update_pi_component l (s.sweep_pi_input l r)
  (p.1, fun t m => p.2 t m - p.1.compute_first_moment l t m)

/-- The per-tissue expected conditional log-likelihood term of
`compute_elbo` (sample engine): `-0.5 n_t log(2 pi) + 0.5 n_t (digamma(a_t)
- log(b_t)) - 0.5 (a_t/b_t) ERSS_t`, where `n_t` counts the observed
samples and `dg` stands for the external `scipy.special.digamma`. -/
def elbo_channel_term {T N M K : ℕ} (dg : ℝ → ℝ) (s : IFS T N M K ℝ)
    (t : Fin T) : ℝ :=
  -(1 / 2) * (s.get_mask t).card * Real.log (2 * Real.pi)
    + 1 / 2 * (s.get_mask t).card
        * (dg (s.tissue_precision_a t) - Real.log (s.tissue_precision_b t))
    - 1 / 2 * s.expected_tissue_precision t * s.compute_ERSS t

/-- Embeds `compute_elbo` (sample engine, default residual): the summed channel
terms minus the weight KL (weighted by `pi`) and the assignment KL. -/
def compute_elbo {T N M K : ℕ} (dg : ℝ → ℝ) (s : IFS T N M K ℝ) : ℝ :=
  (∑ t, elbo_channel_term dg s t)
    - ((∑ t, ∑ k, ∑ n, normal_kl (s.weight_means t k n) (s.weight_vars t k n) 0
          (1 / s.expected_weight_precision t k) * s.pi k n)
      + ∑ k, categorical_kl (s.pi k) s.prior_pi)

end IFS

/-- C4: after an assignment update for any component, in either engine,
the updated `pi` row is a probability simplex: it sums to one and every
entry is non-negative, as a consequence of the max-subtraction softmax
normalization both updates apply to their scores. -/
theorem C4_pi_update_simplex {T N M K T2 N2 K2 : ℕ}
    (s : IFS T (N + 1) M K ℝ) (k : Fin K) (r : Fin T → Fin M → ℝ)
    (s2 : CAFEH2 T2 (N2 + 1) K2 ℝ) (k2 : Fin K2)
    (r2 : Fin T2 → Fin (N2 + 1) → ℝ) :
    ((∑ n, (s.update_pi_component k r).1.pi k n = 1)
      ∧ ∀ n, 0 ≤ (s.update_pi_component k r).1.pi k n)
    ∧ ((∑ n, (s2.update_pi_component k2 r2).pi k2 n = 1)
      ∧ ∀ n, 0 ≤ (s2.update_pi_component k2 r2).pi k2 n) := by
  refine ⟨⟨?_, fun n => ?_⟩, ?_, fun n => ?_⟩
  · simpa [IFS.update_pi_component] using softmax_sum_one (s.pi_update_score k r)
  · simpa [IFS.update_pi_component] using softmax_nonneg (s.pi_update_score k r) n
  · simpa [CAFEH2.update_pi_component] using softmax_sum_one (s2.pi_update_score k2 r2)
  · simpa [CAFEH2.update_pi_component] using softmax_nonneg (s2.pi_update_score k2 r2) n

/-- C10: inside one component pass of the sample-engine fit loop, the
residual array handed to `_update_weight_component` is mutated in place —
every entry at a NaN position of `Y` is overwritten with zero before the
update is computed — and that same zeroed array is what the subsequent
`_update_pi_component` call and the closing first-moment subtraction
observe. -/
theorem C10_residual_zeroed_in_place {T N M K : ℕ} (s : IFS T (N + 1) M K ℝ)
    (l : Fin K) (r : Fin T → Fin M → ℝ) (t : Fin T) (m : Fin M)
    (h : s.Y t m = none) :
    (s.update_weight_component l (s.sweep_weight_input l r)).2 t m = 0
    ∧ (s.update_pi_component l r).2 t m = 0
    ∧ s.sweep_pi_input l r
        = (s.update_weight_component l (s.sweep_weight_input l r)).2
    ∧ (s.fit_component_step l r).2 t m
        = 0 - (s.fit_component_step l r).1.compute_first_moment l t m := by
  refine ⟨?_, ?_, rfl, ?_⟩
  · simp [IFS.update_weight_component, IFS.zero_nan, h]
  · simp [IFS.update_pi_component, IFS.zero_nan, h]
  · simp [IFS.fit_component_step, IFS.update_pi_component, IFS.sweep_pi_input,
      IFS.update_weight_component, IFS.zero_nan, h]

/-- Concrete sample-engine state (one all-NaN channel) for the C10
witness. -/
def c10state : IFS 1 1 1 1 ℝ :=
  ⟨fun _ _ => 1, fun _ _ => none, fun _ _ _ => 0, fun _ _ _ => 1,
   fun _ _ => 1, fun _ => 1, fun _ _ => 1, fun _ _ => 1, fun _ => 1, fun _ => 1,
   none, fun _ => 0, fun _ _ => 0, fun _ _ => false⟩

/-- Witness for C10 at a concrete state. -/
theorem C10_residual_zeroed_in_place_witness :
    c10state.Y 0 0 = none
    ∧ ((c10state.update_weight_component 0
          (c10state.sweep_weight_input 0 fun _ _ => 7)).2 0 0 = 0
      ∧ (c10state.update_pi_component 0 fun _ _ => 7).2 0 0 = 0
      ∧ c10state.sweep_pi_input 0 (fun _ _ => 7)
          = (c10state.update_weight_component 0
              (c10state.sweep_weight_input 0 fun _ _ => 7)).2
      ∧ (c10state.fit_component_step 0 fun _ _ => 7).2 0 0
          = 0 - (c10state.fit_component_step 0 fun _ _ => 7).1.compute_first_moment
              0 0 0) :=
  ⟨rfl, C10_residual_zeroed_in_place c10state 0 (fun _ _ => 7) 0 0 rfl⟩

/-- C6: a fully masked (all-NaN) outcome channel of the sample engine
contributes exactly zero to the ERSS and exactly zero to the
expected-log-likelihood term of the ELBO for that channel, and the
posterior weight arrays stay well-defined after an update there: the new
mean is zero and the new variance is the finite value
`1 / expected_weight_precision`. -/
theorem C6_fully_masked_channel_zero {T N M K : ℕ} (s : IFS T N M K ℝ)
    (dg : ℝ → ℝ) (t : Fin T) (k : Fin K) (n : Fin N) (r : Fin T → Fin M → ℝ)
    (h : ∀ m, s.Y t m = none) :
    s.compute_ERSS t = 0
    ∧ IFS.elbo_channel_term dg s t = 0
    ∧ (s.update_weight_component k r).1.weight_means t k n = 0
    ∧ (s.update_weight_component k r).1.weight_vars t k n
        = 1 / s.expected_weight_precision t k := by
  have hmask : s.get_mask t = ∅ := by
    refine Finset.filter_eq_empty_iff.mpr fun m _ => ?_
    rw [h m]
    simp
  have hERSS : s.compute_ERSS t = 0 := by
    simp [IFS.compute_ERSS, hmask]
  have hdiag : s.get_diag t n = 0 := by
    simp [IFS.get_diag, hmask]
  refine ⟨hERSS, ?_, ?_, ?_⟩
  · rw [IFS.elbo_channel_term, hERSS, hmask]
    simp
  · have hz : ∀ m, s.zero_nan r t m = 0 := fun m => by
      simp [IFS.zero_nan, h m]
    simp [IFS.update_weight_component, IFS.weight_update_mean, hz]
  · simp [IFS.update_weight_component, IFS.weight_update_precision, hdiag]

/-- Concrete sample-engine state (all-NaN channel) for the C6 witness. -/
def c6state : IFS 1 1 1 1 ℝ :=
  ⟨fun _ _ => 1, fun _ _ => none, fun _ _ _ => 0, fun _ _ _ => 1,
   fun _ _ => 1, fun _ => 1, fun _ _ => 1, fun _ _ => 1, fun _ => 1, fun _ => 1,
   none, fun _ => 0, fun _ _ => 0, fun _ _ => false⟩

/-- Witness for C6 at a concrete state. -/
theorem C6_fully_masked_channel_zero_witness :
    (∀ m, c6state.Y 0 m = none)
    ∧ (c6state.compute_ERSS 0 = 0
      ∧ IFS.elbo_channel_term id c6state 0 = 0
      ∧ (c6state.update_weight_component 0 fun _ _ => 3).1.weight_means 0 0 0 = 0
      ∧ (c6state.update_weight_component 0 fun _ _ => 3).1.weight_vars 0 0 0
          = 1 / c6state.expected_weight_precision 0 0) :=
  ⟨fun _ => rfl,
   C6_fully_masked_channel_zero c6state id 0 0 0 (fun _ _ => 3) fun _ => rfl⟩

/-- Embeds `compute_pip` (misc.py):
`1 - np.exp(np.log(1 - model.pi + 1e-10).sum(0))`. -/
def compute_pip {K N : ℕ} (pi : Fin K → Fin N → ℝ) (n : Fin N) : ℝ :=
  1 - Real.exp (∑ k, Real.log (1 - pi k n + 1e-10))

/-- A one-component, one-variant assignment matrix whose single row is a
probability simplex. -/
def c9pi : Fin 1 → Fin 1 → ℝ := fun _ _ => 1

/-- C9 counterexample: at an assignment matrix whose rows are probability
vectors, the exported pip differs from `1 - prod_k (1 - pi[k, n])`: the
`1e-10` guard inside the log shifts every factor, so `compute_pip` is
`1 - 1e-10` here while the claimed formula gives `1`. -/
theorem C9_pip_counterexample :
    (∀ kk : Fin 1, (0 : ℝ) ≤ c9pi kk 0 ∧ ∑ n, c9pi kk n = 1)
    ∧ compute_pip c9pi 0 ≠ 1 - ∏ kk, (1 - c9pi kk 0) := by
  constructor
  · intro kk
    constructor
    · norm_num [c9pi]
    · simp [c9pi]
  · have harg : (1 : ℝ) - c9pi 0 0 + 1e-10 = 1e-10 := by norm_num [c9pi]
    rw [compute_pip, Fin.sum_univ_one, harg,
      Real.exp_log (by norm_num : (0 : ℝ) < 1e-10), Fin.prod_univ_one]
    norm_num [c9pi]

/-- C9 amended: for assignment rows with entries in `[0, 1]`, the
exported pip equals `1 - prod_k (1 - pi[k, n] + 1e-10)` — the product
form of the code's log-sum-exp, with the `1e-10` guard kept inside each
factor. -/
theorem C9_pip_amended {K N : ℕ} (pi : Fin K → Fin N → ℝ) (n : Fin N)
    (h : ∀ k, 0 ≤ pi k n ∧ pi k n ≤ 1) :
    compute_pip pi n = 1 - ∏ k, (1 - pi k n + 1e-10) := by
  unfold compute_pip
  congr 1
  rw [Real.exp_sum]
  refine Finset.prod_congr rfl fun k _ => ?_
  have hk := (h k).2
  exact Real.exp_log (by nlinarith)

/-- Concrete assignment matrix for the C9 witness. -/
def c9wpi : Fin 1 → Fin 1 → ℝ := fun _ _ => 1 / 2

/-- Witness for the amended C9 at a concrete assignment matrix. -/
theorem C9_pip_amended_witness :
    (∀ k : Fin 1, 0 ≤ c9wpi k 0 ∧ c9wpi k 0 ≤ 1)
    ∧ compute_pip c9wpi 0 = 1 - ∏ k, (1 - c9wpi k 0 + 1e-10) :=
  ⟨fun k => ⟨by norm_num [c9wpi], by norm_num [c9wpi]⟩,
   C9_pip_amended c9wpi 0 fun k => ⟨by norm_num [c9wpi], by norm_num [c9wpi]⟩⟩

end

/-- A raw constructor input array together with its declared shape (the
entries are given as a total function; positions outside the shape are
never consulted). -/
structure RawMat (F : Type) where
  rows : ℕ
  cols : ℕ
  entry : ℕ → ℕ → F

/-- Determinant of the leading square block of a raw matrix (meaningful
when `rows = cols`). -/
def RawMat.detSq (A : RawMat ℚ) : ℚ :=
  Matrix.det (Matrix.of fun i j : Fin A.rows => A.entry i j)

/-- Whether `np.linalg.solve(R2, R1)` raises: it requires `R2` square,
`R1` with a matching leading dimension, and `R2` nonsingular. -/
def solve_raises (R2 R1 : RawMat ℚ) : Bool :=
  if R2.rows = R2.cols then
    if R1.rows = R2.rows then decide (R2.detSq = 0) else true
  else true

/-- Embeds `CAFEH2.__init__(R1, R2, Y, K, ...)`: the constructor reads
`T, N = Y.shape`, allocates the parameter arrays, and computes
`R2invR1 = np.linalg.solve(R2, R1)` followed by
`R1R2invR1 = R1 @ R2invR1` — the only operations that can raise.  The
solve fails for a non-square `R2`, a leading-dimension mismatch between
`R1` and `R2`, or a singular `R2`; the matmul fails unless
`R1.cols = R2.rows` (the solve result has `R2.rows` rows, so `R1` must
be square).  No shape is validated against `N`.  Returns whether
construction succeeds. -/
def CAFEH2_init_ok (R1 R2 Y : RawMat ℚ) (K : ℕ) : Bool :=
  !(solve_raises R2 R1) && decide (R1.cols = R2.rows)

/-- Embeds `IndependentFactorSER.__init__(X, Y, K, ...)` with `covariates=None`:
the constructor reads `T, M = Y.shape` and `N = X.shape[0]` and allocates
the parameter arrays; no operation can raise, in particular no check that
`X.shape[1]` equals `M`.  Returns whether construction succeeds. -/
def IFS_init_ok (X Y : RawMat ℚ) (K : ℕ) : Bool :=
  true

/-- A 2-by-2 identity covariance input. -/
def c8R : RawMat ℚ := ⟨2, 2, fun i j => if i = j then 1 else 0⟩

/-- A 1-by-1 outcome matrix: `T = 1`, `N = 1` (covariance engine) or
`M = 1` (sample engine). -/
def c8Y : RawMat ℚ := ⟨1, 1, fun _ _ => 1⟩

/-- A genotype input with `N = 1` variant and `M = 2` samples. -/
def c8X : RawMat ℚ := ⟨1, 2, fun _ _ => 1⟩

lemma c8R_detSq : c8R.detSq = 1 := by
  show Matrix.det (Matrix.of fun i j : Fin 2 => c8R.entry i j) = 1
  rw [Matrix.det_fin_two]
  simp only [Matrix.of_apply]
  norm_num [c8R]

/-- C8 counterexample: construction does not fail fast on dimension
mismatch.  A covariance model built from 2-by-2 matrices `R1 = R2 = I`
and a 1-by-1 outcome matrix (`N = 1 ≠ 2`) constructs successfully, and a
sample model built from a 1-by-2 genotype matrix and a 1-by-1 outcome
matrix (`M = 1 ≠ 2`) constructs successfully; the mismatch would surface
only mid-fit. -/
theorem C8_no_dimension_validation_counterexample :
    (c8R.rows ≠ c8Y.cols ∧ CAFEH2_init_ok c8R c8R c8Y 1 = true)
    ∧ (c8X.cols ≠ c8Y.cols ∧ IFS_init_ok c8X c8Y 1 = true) := by
  refine ⟨⟨by decide, ?_⟩, by decide, rfl⟩
  have h1 : c8R.rows = c8R.cols := rfl
  have hraise : solve_raises c8R c8R = false := by
    rw [solve_raises, if_pos h1, if_pos rfl, decide_eq_false_iff_not, c8R_detSq]
    norm_num
  rw [CAFEH2_init_ok, hraise]
  decide

/-- C8 amended: neither constructor validates dimension agreement
against the outcome matrix.  The sample-based constructor always
succeeds, and the covariance-based constructor's outcome does not depend
on the outcome matrix `Y` (or on `K`) at all — its only
construction-time failures are the two derived-transform computations:
the linear solve on `R2`/`R1` (non-square `R2`, `R1`-`R2`
leading-dimension mismatch, or singular `R2`) and the subsequent matmul
`R1 @ R2invR1` (which requires `R1.cols = R2.rows`, i.e. a square `R1`
once the solve has succeeded).  Mismatches against `Y` surface mid-fit,
not at construction. -/
theorem C8_no_dimension_validation_amended :
    (∀ X Y : RawMat ℚ, ∀ K : ℕ, IFS_init_ok X Y K = true)
    ∧ (∀ R1 R2 Y Y2 : RawMat ℚ, ∀ K K2 : ℕ,
        CAFEH2_init_ok R1 R2 Y K = CAFEH2_init_ok R1 R2 Y2 K2)
    ∧ (∀ R1 R2 Y : RawMat ℚ, ∀ K : ℕ,
        CAFEH2_init_ok R1 R2 Y K = true
          ↔ solve_raises R2 R1 = false ∧ R1.cols = R2.rows) :=
  ⟨fun _ _ _ => rfl, fun _ _ _ _ _ _ => rfl, fun R1 R2 _ _ => by
    rw [CAFEH2_init_ok, Bool.and_eq_true, Bool.not_eq_true', decide_eq_true_iff]⟩

end Coloc
